import Mathlib

/-!
Shallow embedding of the funding-and-dispatch engine of the
domain-transaction-producer repository (Rust sources: `dtp/src/utils.rs`,
`dtp/src/contracts.rs`, `dtp/src/main.rs`, `src/utils.rs`, `src/main.rs`).

Machine integers are modelled as `Nat` with explicit bounds: `u64` and
`usize` values live below `2 ^ 64`, `u32` below `2 ^ 32`, and the chain's
`U256` values below `2 ^ 256`.  Rust's `checked_mul` / `checked_sub` become
`Option`-valued functions; a call of `.expect(..)` / `unwrap()` on `None`,
and a failing `assert!`, are modelled as distinguished abort outcomes
(a Rust panic, which in this binary terminates the whole process).
Network reads (balances, nonces, gas estimates, receipts) are passed in as
explicit arguments: each definition is a pure function of the values the
provider returned.
-/

namespace Dtp

/-- `2 ^ 64`, one past the largest `u64` / 64-bit `usize`. -/
def U64_MOD : ℕ := 2 ^ 64

/-- `2 ^ 32`, one past the largest `u32`. -/
def U32_MOD : ℕ := 2 ^ 32

/-- `2 ^ 256`, one past the largest `U256`. -/
def U256_MOD : ℕ := 2 ^ 256

/-- Rust `u64::checked_mul`: `some (a * b)` unless the product overflows 64 bits. -/
def checkedMulU64 (a b : ℕ) : Option ℕ :=
  if a * b < U64_MOD then some (a * b) else none

/-- `U256::checked_mul`: `some (a * b)` unless the product overflows 256 bits. -/
def checkedMulU256 (a b : ℕ) : Option ℕ :=
  if a * b < U256_MOD then some (a * b) else none

/-- `U256::checked_sub`: `some (a - b)` when `b ≤ a`, else `none`. -/
def checkedSubU256 (a b : ℕ) : Option ℕ :=
  if b ≤ a then some (a - b) else none

/-! ## Unit converter (`wei_to_tssc_string`, `wei_to_tssc_f64`, `dtp/src/utils.rs` 24-33) -/

/-- Left-pad a string with zeros to 18 characters, as `format_units`'s
fractional part does for the 18-decimal "ether" unit. -/
def padFrac18 (s : String) : String :=
  String.mk (List.replicate (18 - s.length) '0') ++ s

/-- `wei_to_tssc_string`: `format_units(bal_wei, "ether")`.  Total over `U256`:
the integer quotient by `10 ^ 18`, a dot, and the 18-digit zero-padded
remainder.  (`format_units` only errors on an invalid unit name; "ether" is
valid, so the `unwrap()` never aborts.) -/
def wei_to_tssc_string (balWei : ℕ) : String :=
  toString (balWei / 10 ^ 18) ++ "." ++ padFrac18 (toString (balWei % 10 ^ 18))

/-- `wei_to_tssc_f64`: `bal_wei.as_usize() as f64 / 1e18`.  `U256::as_usize`
aborts (panics) when the value exceeds `usize::MAX = 2 ^ 64 - 1`; below that
the division is modelled as the exact rational `balWei / 10 ^ 18` (the `f64`
rounding is abstracted away). -/
def wei_to_tssc_f64 (balWei : ℕ) : Option ℚ :=
  if balWei < U64_MOD then some ((balWei : ℚ) / 10 ^ 18) else none

/-! ## Balance verifier
(`get_funder_wallet_and_check_required_balance`, `dtp/src/utils.rs` 396-431,
and the identical inline check in `dtp/src/main.rs` 107-121). -/

/-- Outcome of the funder sufficiency check.  `ok` returns the fetched
initial balance (the Rust function returns the wallet, its address and that
balance); `overflowAbort` is the `.expect(..)` panic when
`funding_amount.checked_mul(num_accounts)` overflows `u64`; and
`insufficientAbort` is the failing `assert!`, whose message carries
`required_balance.checked_sub(funder_balance_wei_initial)`. -/
inductive FunderCheckResult where
  | ok (funderBalanceWeiInitial : ℕ)
  | overflowAbort (msg : String)
  | insufficientAbort (deficit : Option ℕ)
deriving DecidableEq, Repr

/-- `get_funder_wallet_and_check_required_balance`, after the wallet import
and the balance fetch: compute `required = funding_amount * num_accounts`
with `u64::checked_mul` (panicking on overflow), then `assert!` that the
funder balance strictly exceeds it, reporting
`required.checked_sub(balance)` on failure. -/
def get_funder_wallet_and_check_required_balance
    (funderBalanceWeiInitial fundingAmount numAccounts : ℕ) : FunderCheckResult :=
  match checkedMulU64 fundingAmount numAccounts with
  | none => .overflowAbort "Error in subtraction of difference amount"
  | some requiredBalance =>
      if funderBalanceWeiInitial > requiredBalance then
        .ok funderBalanceWeiInitial
      else
        .insufficientAbort (checkedSubU256 requiredBalance funderBalanceWeiInitial)

/-! ## Batched dispatcher chunking
(`handle_async_calls_in_batch_light`, `dtp/src/utils.rs` 237-256, and
`handle_async_calls_in_batch_heavy`, 332-351: both iterate
`signers.chunks(MAX_BATCH_SIZE)` and await each batch with `join_all`
before starting the next). -/

/-- `MAX_BATCH_SIZE` (`dtp/src/utils.rs` line 15). -/
def MAX_BATCH_SIZE : ℕ := 100

/-- Fuel-indexed core of Rust's `slice::chunks(B)`: peel off `take B` and
recurse on `drop B`.  With `0 < B`, any `fuel ≥ l.length` gives the real
chunk sequence (each step consumes at least one element). -/
def chunksF (B : ℕ) : ℕ → List α → List (List α)
  | _, [] => []
  | 0, l => [l]
  | fuel + 1, a :: l => ((a :: l).take B) :: chunksF B fuel ((a :: l).drop B)

/-- Rust `signers.chunks(B)` as a total function (faithful for `0 < B`;
Rust panics on `B = 0`, which never occurs: the one call site uses
`MAX_BATCH_SIZE = 100`). -/
def chunks (B : ℕ) (l : List α) : List (List α) :=
  chunksF B l.length l

/-- The sequence of batches `handle_async_calls_in_batch_light` runs, in
order: the `for chunk in signers.chunks(MAX_BATCH_SIZE)` loop body awaits
one `join_all` per chunk, strictly sequentially. -/
def handle_async_calls_in_batch_light (signers : List ℕ) : List (List ℕ) :=
  chunks MAX_BATCH_SIZE signers

/-! ## Heavy operation (`load_set_array` in `dtp/src/utils.rs` 285-328 and in
`dtp/src/contracts.rs` 86-138). -/

/-- `MAX_LOAD_COUNT_PER_BLOCK` (`dtp/src/utils.rs` line 21). -/
def MAX_LOAD_COUNT_PER_BLOCK : ℕ := 2650

/-- The assumed gas price hard-coded in `dtp/src/contracts.rs` line 109:
3.5 Gwei, i.e. `3500000000` wei. -/
def ASSUMED_GAS_PRICE_WEI : ℕ := 3500000000

/-- Outcome of one heavy task.  `submitted count` means control reached
`load.set_array(U256::from(count)).send()`; `fatalAbort` is a failing
`assert!` or `.expect(..)` — a Rust panic, which (the futures being polled
by `join_all` inside the main task) unwinds and terminates the whole
process, not just the task. -/
inductive HeavyTaskResult where
  | submitted (count : ℕ)
  | fatalAbort (msg : String)
deriving DecidableEq, Repr

/-- `load_set_array` from `dtp/src/utils.rs`: `count` is hard-coded to
`MAX_LOAD_COUNT_PER_BLOCK`; there is no magnitude parameter, no ceiling
comparison and no balance pre-check before `set_array(count).send()`. -/
def load_set_array (_signer : ℕ) : HeavyTaskResult :=
  .submitted MAX_LOAD_COUNT_PER_BLOCK

/-- One heavy task's inputs for the `dtp/src/contracts.rs` variant: the
submitting account's fetched balance, the node's gas estimate for the
`setArray` call, and the caller-supplied `max_load_count_per_block`
argument. -/
structure HeavyTask where
  fromBalancePre : ℕ
  estimatedGas : ℕ
  maxLoadCountPerBlock : ℕ
deriving DecidableEq, Repr

/-- `load_set_array` from `dtp/src/contracts.rs`: set
`count = max_load_count_per_block` (used as-is, never compared against any
ceiling), compute `estimated_gas.checked_mul(3500000000).unwrap()`, then
`assert!(from_balance_pre >= estimated_gas_price)` — panicking with the
`checked_sub` deficit on failure — and finally submit `set_array(count)`. -/
def load_set_array_c (t : HeavyTask) : HeavyTaskResult :=
  let count := t.maxLoadCountPerBlock
  match checkedMulU256 t.estimatedGas ASSUMED_GAS_PRICE_WEI with
  | none => .fatalAbort "unwrap on None in estimated gas price"
  | some estimatedGasPrice =>
      if t.fromBalancePre ≥ estimatedGasPrice then
        .submitted count
      else
        .fatalAbort ("Balance short by: " ++ toString (estimatedGasPrice - t.fromBalancePre))

/-- `true` exactly on the panicking outcome. -/
def isFatal : HeavyTaskResult → Bool
  | .fatalAbort _ => true
  | .submitted _ => false

/-- Outcome of a whole dispatch run: either every task ran to its own
result, or a panic in some task tore the process down. -/
inductive RunOutcome where
  | completed (results : List HeavyTaskResult)
  | aborted (msg : String)
deriving DecidableEq, Repr

/-- `join_all` over one chunk of heavy tasks: all futures are polled in the
same (main) task, so the first panicking one unwinds the whole process;
otherwise the per-task `Result`s are produced (and then discarded by the
caller). -/
def joinAllHeavy (chunk : List HeavyTask) : Except String (List HeavyTaskResult) :=
  let results := chunk.map load_set_array_c
  match results.find? isFatal with
  | some (.fatalAbort m) => .error m
  | _ => .ok results

/-- Process batches strictly in order, stopping the run at the first
panicking batch (the `for` loop in `handle_async_calls_in_batch_heavy`). -/
def runChunksHeavy : List (List HeavyTask) → RunOutcome
  | [] => .completed []
  | c :: cs =>
      match joinAllHeavy c with
      | .error m => .aborted m
      | .ok rs =>
          match runChunksHeavy cs with
          | .aborted m => .aborted m
          | .completed rest => .completed (rs ++ rest)

/-- `handle_async_calls_in_batch_heavy` driving the `contracts.rs`
`load_set_array` (the variant with the pre-flight gas/balance check):
chunk into batches of `MAX_BATCH_SIZE` and run them sequentially. -/
def handle_async_calls_in_batch_heavy (tasks : List HeavyTask) : RunOutcome :=
  runChunksHeavy (chunks MAX_BATCH_SIZE tasks)

/-! ## Funding distributor (`transfer_tssc_bulk`, `dtp/src/utils.rs` 481-523,
and its single caller `gen_wallets_transfer_tssc`, 434-478). -/

/-- Outcome of the bulk funding call: exactly one transaction is built and
submitted, carrying the recipient list and the attached total value;
`overflowAbort` is the `.expect(..)` panic when
`funding_amount.checked_mul(U256::from(tos.len()))` overflows `U256`. -/
inductive BulkTransferResult where
  | submittedTx (recipients : List ℕ) (totalValue : ℕ)
  | overflowAbort (msg : String)
deriving DecidableEq, Repr

/-- `transfer_tssc_bulk`: one `transferTsscToMany(tos)` call with attached
value `funding_amount.checked_mul(tos.len()).expect(..)`. -/
def transfer_tssc_bulk (fundingAmount : ℕ) (tos : List ℕ) : BulkTransferResult :=
  match checkedMulU256 fundingAmount tos.length with
  | none => .overflowAbort "Error in multiplying fund amount w receivers len."
  | some v => .submittedTx tos v

/-- `gen_wallets_transfer_tssc`: generate `num_accounts` wallets (the RNG is
abstracted as a map from loop index to address), then make a single call to
`transfer_tssc_bulk` with all of their addresses.  The result is the list of
bulk-transfer submissions the funding phase performs — by construction a
one-element list. -/
def gen_wallets_transfer_tssc (numAccounts : ℕ) (genAddr : ℕ → ℕ)
    (fundingAmount : ℕ) : List BulkTransferResult :=
  let walletAddresses := (List.range numAccounts).map genAddr
  [transfer_tssc_bulk fundingAmount walletAddresses]

/-! ## Gas-cost observability (`get_gas_cost`, `dtp/src/utils.rs` 36-52, and
`log_tx_dbg`, `dtp/src/contracts.rs` 141-158). -/

/-- The fields of the transaction object returned by
`eth_getTransactionByHash` that `get_gas_cost` reads: `gas_price` (after its
`unwrap()`) and `gas` — the transaction's gas limit, not the gas used. -/
structure TxInfo where
  gas_price : ℕ
  gas : ℕ
deriving DecidableEq, Repr

/-- The receipt fields `log_tx_dbg` reads. -/
structure Receipt where
  effective_gas_price : Option ℕ
  gas_used : Option ℕ
deriving DecidableEq, Repr

/-- `get_gas_cost` at the wei level: `gas_price.checked_mul(gas).unwrap()`
on the transaction object — the product of the transaction's gas price and
its gas limit.  `none` models the `unwrap()` panic on overflow.  (The wei
value is then fed to `wei_to_tssc_f64` for display.) -/
def get_gas_cost (tx : TxInfo) : Option ℕ :=
  checkedMulU256 tx.gas_price tx.gas

/-- The wei fee printed by `log_tx_dbg`:
`effective_gas_price.unwrap().checked_mul(gas_used.unwrap_or_default()).unwrap_or(0)`.
`none` models the panic of the outer `unwrap()` on a receipt with no
effective gas price. -/
def log_tx_dbg_fee (r : Receipt) : Option ℕ :=
  match r.effective_gas_price with
  | none => none
  | some p => some ((checkedMulU256 p (r.gas_used.getD 0)).getD 0)

/-! ## Single-account funding transfer (`transfer_tssc`, `src/utils.rs`
10-83). -/

/-- The provider responses `transfer_tssc` consumes, in call order: the
sender's transaction count before the send, whether the raw-transaction
submission produced a receipt, and the transaction count fetched after. -/
structure TransferReads where
  nonceBefore : ℕ
  sendSucceeds : Bool
  nonceAfter : ℕ
deriving DecidableEq, Repr

/-- Outcome of `transfer_tssc`: `ok` is the `Ok(())` return; `fatalAbort`
covers the `.expect(..)` panics on a failed send and the final failing
`assert!(nonce2 > nonce1)`. -/
inductive TransferOutcome where
  | ok
  | fatalAbort (msg : String)
deriving DecidableEq, Repr

/-- `transfer_tssc`: read `nonce1`, build/sign/send the raw transaction
(panicking if no receipt comes back), read `nonce2`, then
`assert!(nonce2 > nonce1)` before returning `Ok(())`. -/
def transfer_tssc (r : TransferReads) : TransferOutcome :=
  if !r.sendSucceeds then
    .fatalAbort "Failure in raw tx"
  else if r.nonceAfter > r.nonceBefore then
    .ok
  else
    .fatalAbort "Sender's nonce must be incremented after each tx"

/-! ## Workload-kind parsing (`TransactionType::from_str`,
`dtp/src/main.rs` 55-65, and the `main` dispatch on it, 72-189). -/

/-- `TransactionType` (`dtp/src/main.rs` 49-52). -/
inductive TransactionType where
  | LIGHT
  | HEAVY
deriving DecidableEq, Repr

/-- Rust `str::to_uppercase`, restricted to the ASCII mapping (each
character individually uppercased); the non-ASCII special cases of Unicode
uppercasing are abstracted away. -/
def rustToUppercase (s : String) : String :=
  String.mk (s.data.map Char.toUpper)

/-- `TransactionType::from_str`: match on `s.to_uppercase()` — "LIGHT" and
"HEAVY" parse, anything else is an error message quoting the input. -/
def transactionType_from_str (s : String) : Except String TransactionType :=
  if rustToUppercase s = "LIGHT" then .ok .LIGHT
  else if rustToUppercase s = "HEAVY" then .ok .HEAVY
  else .error ("\x27" ++ s ++ "\x27 is not a valid TransactionType")

/-- The two phases `main` drives after a successful parse. -/
inductive RunPhase where
  | funding
  | dispatch
deriving DecidableEq, Repr

/-- The phase structure of `main` (`dtp/src/main.rs`): the transaction type
is parsed first; on `Err` the run `bail!`s immediately, so no funding and no
dispatch happens; on `Ok` it funds the accounts and then dispatches the
chosen workload. -/
def mainPhases (transactionTypeArg : String) : Except String (List RunPhase) :=
  match transactionType_from_str transactionTypeArg with
  | .error e => .error e
  | .ok _ => .ok [RunPhase.funding, RunPhase.dispatch]

/-! ## Helper lemmas about `chunks` -/

theorem chunksF_nil (B fuel : ℕ) : chunksF B fuel ([] : List α) = [] := by
  cases fuel <;> rfl

theorem chunksF_fuel_congr {B : ℕ} (hB : 0 < B) :
    ∀ (f₁ : ℕ) (f₂ : ℕ) (l : List α), l.length ≤ f₁ → l.length ≤ f₂ →
      chunksF B f₁ l = chunksF B f₂ l := by
  intro f₁
  induction f₁ with
  | zero =>
      intro f₂ l h₁ _
      have hl : l = [] := List.length_eq_zero.mp (Nat.le_zero.mp h₁)
      subst hl
      rw [chunksF_nil, chunksF_nil]
  | succ f ih =>
      intro f₂ l h₁ h₂
      cases l with
      | nil => rw [chunksF_nil, chunksF_nil]
      | cons a t =>
          cases f₂ with
          | zero => simp at h₂
          | succ g =>
              show ((a :: t).take B) :: chunksF B f ((a :: t).drop B)
                  = ((a :: t).take B) :: chunksF B g ((a :: t).drop B)
              have hd : ((a :: t).drop B).length ≤ f := by
                rw [List.length_drop]
                simp only [List.length_cons] at h₁ ⊢
                omega
              have hd₂ : ((a :: t).drop B).length ≤ g := by
                rw [List.length_drop]
                simp only [List.length_cons] at h₂ ⊢
                omega
              rw [ih g ((a :: t).drop B) hd hd₂]

theorem chunks_nil (B : ℕ) : chunks B ([] : List α) = [] := rfl

theorem chunks_cons {B : ℕ} (hB : 0 < B) (a : α) (l : List α) :
    chunks B (a :: l) = ((a :: l).take B) :: chunks B ((a :: l).drop B) := by
  show chunksF B (l.length + 1) (a :: l) = _
  show ((a :: l).take B) :: chunksF B l.length ((a :: l).drop B) = _
  have hd : ((a :: l).drop B).length ≤ l.length := by
    rw [List.length_drop]
    simp only [List.length_cons]
    omega
  rw [chunksF_fuel_congr hB l.length ((a :: l).drop B).length ((a :: l).drop B) hd le_rfl]
  rfl

theorem chunksF_flatten {B : ℕ} (hB : 0 < B) :
    ∀ (fuel : ℕ) (l : List α), l.length ≤ fuel → (chunksF B fuel l).flatten = l := by
  intro fuel
  induction fuel with
  | zero =>
      intro l h
      have hl : l = [] := List.length_eq_zero.mp (Nat.le_zero.mp h)
      subst hl
      rw [chunksF_nil]
      rfl
  | succ f ih =>
      intro l h
      cases l with
      | nil => rw [chunksF_nil]; rfl
      | cons a t =>
          show (((a :: t).take B) :: chunksF B f ((a :: t).drop B)).flatten = a :: t
          rw [List.flatten_cons]
          have hd : ((a :: t).drop B).length ≤ f := by
            rw [List.length_drop]
            simp only [List.length_cons] at h ⊢
            omega
          rw [ih ((a :: t).drop B) hd, List.take_append_drop]

theorem chunksF_length {B : ℕ} (hB : 0 < B) :
    ∀ (fuel : ℕ) (l : List α), l.length ≤ fuel →
      (chunksF B fuel l).length = (l.length + B - 1) / B := by
  intro fuel
  induction fuel with
  | zero =>
      intro l h
      have hl : l = [] := List.length_eq_zero.mp (Nat.le_zero.mp h)
      subst hl
      rw [chunksF_nil]
      simp only [List.length_nil, Nat.zero_add]
      exact (Nat.div_eq_of_lt (by omega)).symm
  | succ f ih =>
      intro l h
      cases l with
      | nil =>
          rw [chunksF_nil]
          simp only [List.length_nil, Nat.zero_add]
          exact (Nat.div_eq_of_lt (by omega)).symm
      | cons a t =>
          show (((a :: t).take B) :: chunksF B f ((a :: t).drop B)).length
              = ((a :: t).length + B - 1) / B
          have hd : ((a :: t).drop B).length ≤ f := by
            rw [List.length_drop]
            simp only [List.length_cons] at h ⊢
            omega
          rw [List.length_cons, ih ((a :: t).drop B) hd, List.length_drop]
          simp only [List.length_cons]
          have hrhs : t.length + 1 + B - 1 = t.length + B := by omega
          rw [hrhs, Nat.add_div_right _ hB]
          rcases le_or_lt B (t.length + 1) with hle | hgt
          · have heq : t.length + 1 - B + B - 1 = t.length := by omega
            rw [heq]
          · have heq : t.length + 1 - B = 0 := by omega
            rw [heq]
            rw [Nat.div_eq_of_lt (by omega), Nat.div_eq_of_lt (by omega)]

theorem chunksF_mem_size {B : ℕ} (hB : 0 < B) :
    ∀ (fuel : ℕ) (l : List α) (c : List α), l.length ≤ fuel →
      c ∈ chunksF B fuel l → 0 < c.length ∧ c.length ≤ B := by
  intro fuel
  induction fuel with
  | zero =>
      intro l c h hc
      have hl : l = [] := List.length_eq_zero.mp (Nat.le_zero.mp h)
      subst hl
      rw [chunksF_nil] at hc
      simp at hc
  | succ f ih =>
      intro l c h hc
      cases l with
      | nil => rw [chunksF_nil] at hc; simp at hc
      | cons a t =>
          have hc' : c ∈ ((a :: t).take B) :: chunksF B f ((a :: t).drop B) := hc
          rcases List.mem_cons.mp hc' with hhd | htl
          · subst hhd
            rw [List.length_take, List.length_cons]
            exact ⟨lt_min hB (Nat.succ_pos _), min_le_left _ _⟩
          · have hd : ((a :: t).drop B).length ≤ f := by
              rw [List.length_drop]
              simp only [List.length_cons] at h ⊢
              omega
            exact ih ((a :: t).drop B) c hd htl

theorem chunksF_dropLast_size {B : ℕ} (hB : 0 < B) :
    ∀ (fuel : ℕ) (l : List α) (c : List α), l.length ≤ fuel →
      c ∈ (chunksF B fuel l).dropLast → c.length = B := by
  intro fuel
  induction fuel with
  | zero =>
      intro l c h hc
      have hl : l = [] := List.length_eq_zero.mp (Nat.le_zero.mp h)
      subst hl
      rw [chunksF_nil] at hc
      simp at hc
  | succ f ih =>
      intro l c h hc
      cases l with
      | nil => rw [chunksF_nil] at hc; simp at hc
      | cons a t =>
          have hc' : c ∈ (((a :: t).take B) :: chunksF B f ((a :: t).drop B)).dropLast := hc
          have hd : ((a :: t).drop B).length ≤ f := by
            rw [List.length_drop]
            simp only [List.length_cons] at h ⊢
            omega
          by_cases hrest : chunksF B f ((a :: t).drop B) = []
          · rw [hrest] at hc'
            simp at hc'
          · rw [List.dropLast_cons_of_ne_nil hrest] at hc'
            rcases List.mem_cons.mp hc' with hhd | htl
            · subst hhd
              rw [List.length_take, List.length_cons]
              have hBle : B ≤ t.length + 1 := by
                by_contra hgt
                push_neg at hgt
                have hdnil : (a :: t).drop B = [] := by
                  apply List.drop_eq_nil_of_le
                  simp only [List.length_cons]
                  omega
                rw [hdnil, chunksF_nil] at hrest
                exact hrest rfl
              omega
            · exact ih ((a :: t).drop B) c hd htl

theorem chunks_flatten {B : ℕ} (hB : 0 < B) (l : List α) :
    (chunks B l).flatten = l :=
  chunksF_flatten hB l.length l le_rfl

theorem chunks_length {B : ℕ} (hB : 0 < B) (l : List α) :
    (chunks B l).length = (l.length + B - 1) / B :=
  chunksF_length hB l.length l le_rfl

theorem chunks_mem_size {B : ℕ} (hB : 0 < B) (l : List α) (c : List α)
    (hc : c ∈ chunks B l) : 0 < c.length ∧ c.length ≤ B :=
  chunksF_mem_size hB l.length l c le_rfl hc

theorem chunks_dropLast_size {B : ℕ} (hB : 0 < B) (l : List α) (c : List α)
    (hc : c ∈ (chunks B l).dropLast) : c.length = B :=
  chunksF_dropLast_size hB l.length l c le_rfl hc

theorem load_set_array_c_eval (t : HeavyTask)
    (hg : t.estimatedGas * ASSUMED_GAS_PRICE_WEI < U256_MOD) :
    load_set_array_c t
      = if t.estimatedGas * ASSUMED_GAS_PRICE_WEI ≤ t.fromBalancePre
        then .submitted t.maxLoadCountPerBlock
        else .fatalAbort ("Balance short by: "
            ++ toString (t.estimatedGas * ASSUMED_GAS_PRICE_WEI - t.fromBalancePre)) := by
  unfold load_set_array_c checkedMulU256
  rw [if_pos hg]

/-! ## Claim theorems -/

/-- C1: for every `funding_amount f > 0` and `num_accounts n > 0` with
`f * n` not overflowing `u64`, the funder balance check succeeds iff the
funder's balance strictly exceeds `f * n` (a balance exactly equal to
`f * n` fails), and on failure the insufficient-balance message reports the
exact deficit `f * n - funder_balance`. -/
theorem funder_check_strict_deficit (bal f n : ℕ)
    (_hf : 0 < f) (_hn : 0 < n) (hnof : f * n < U64_MOD) :
    (get_funder_wallet_and_check_required_balance bal f n = .ok bal ↔ f * n < bal) ∧
    (bal ≤ f * n →
      get_funder_wallet_and_check_required_balance bal f n
        = .insufficientAbort (some (f * n - bal))) := by
  have h1 : get_funder_wallet_and_check_required_balance bal f n
      = if bal > f * n then .ok bal
        else .insufficientAbort (if bal ≤ f * n then some (f * n - bal) else none) := by
    unfold get_funder_wallet_and_check_required_balance checkedMulU64 checkedSubU256
    rw [if_pos hnof]
  rw [h1]
  refine ⟨?_, fun hle => by rw [if_neg (by omega), if_pos hle]⟩
  by_cases hb : bal > f * n
  · rw [if_pos hb]
    exact ⟨fun _ => hb, fun _ => rfl⟩
  · rw [if_neg hb]
    exact ⟨fun h => FunderCheckResult.noConfusion h, fun h => absurd h hb⟩

/-- Witness for C1: balance 1000, funding 100, 5 accounts (required 500)
passes; balance 400 with the same request fails short by exactly 100. -/
theorem funder_check_strict_deficit_witness :
    get_funder_wallet_and_check_required_balance 1000 100 5 = .ok 1000 ∧
    get_funder_wallet_and_check_required_balance 400 100 5
      = .insufficientAbort (some 100) :=
  ⟨(funder_check_strict_deficit 1000 100 5 (by decide) (by decide) (by decide)).1.mpr
      (by decide),
   (funder_check_strict_deficit 400 100 5 (by decide) (by decide) (by decide)).2
      (by decide)⟩

/-- C2: whenever `funding_amount * num_accounts` exceeds the 64-bit width
(for any in-range `u64` amount and `u32` count), the required-balance
computation aborts with the overflow panic of the `checked_mul` — it never
silently wraps, and in particular never returns `ok`. -/
theorem funder_check_overflow_aborts (bal f n : ℕ)
    (_hf : f < U64_MOD) (_hn : n < U32_MOD) (hover : U64_MOD ≤ f * n) :
    get_funder_wallet_and_check_required_balance bal f n
      = .overflowAbort "Error in subtraction of difference amount" := by
  unfold get_funder_wallet_and_check_required_balance checkedMulU64
  rw [if_neg (by omega)]

/-- Witness for C2: `f = u64::MAX`, `n = 2` aborts with the overflow panic. -/
theorem funder_check_overflow_aborts_witness :
    get_funder_wallet_and_check_required_balance 0 (2 ^ 64 - 1) 2
      = .overflowAbort "Error in subtraction of difference amount" :=
  funder_check_overflow_aborts 0 (2 ^ 64 - 1) 2 (by decide) (by decide) (by decide)

/-- C3: with `MAX_BATCH_SIZE = 100`, the dispatcher partitions any task
list into `ceil(L / 100)` contiguous batches processed in order: the
batches concatenate back to the original list (nothing dropped, duplicated
or reordered), every batch except possibly the last has exactly 100 tasks,
and every batch is nonempty with at most 100 tasks.  The heavy dispatcher
chunks identically. -/
theorem batch_partition_spec (signers : List ℕ) :
    (handle_async_calls_in_batch_light signers).flatten = signers ∧
    (handle_async_calls_in_batch_light signers).length
      = (signers.length + MAX_BATCH_SIZE - 1) / MAX_BATCH_SIZE ∧
    (∀ c ∈ (handle_async_calls_in_batch_light signers).dropLast,
        c.length = MAX_BATCH_SIZE) ∧
    (∀ c ∈ handle_async_calls_in_batch_light signers,
        0 < c.length ∧ c.length ≤ MAX_BATCH_SIZE) := by
  have hB : 0 < MAX_BATCH_SIZE := by decide
  exact ⟨chunks_flatten hB signers, chunks_length hB signers,
    fun c hc => chunks_dropLast_size hB signers c hc,
    fun c hc => chunks_mem_size hB signers c hc⟩

set_option maxRecDepth 100000 in
/-- Witness for C3: 250 tasks yield 3 batches whose concatenation is the
original list, and the first batch (a non-last batch) has exactly 100
tasks. -/
theorem batch_partition_spec_witness :
    (handle_async_calls_in_batch_light (List.range 250)).flatten = List.range 250 ∧
    (handle_async_calls_in_batch_light (List.range 250)).length = 3 ∧
    (List.range 100).length = 100 :=
  ⟨(batch_partition_spec (List.range 250)).1,
   ((batch_partition_spec (List.range 250)).2.1).trans (by decide),
   (batch_partition_spec (List.range 250)).2.2.1 (List.range 100) (by decide)⟩

/-- C4: the funding phase makes exactly one bulk-transfer submission; when
`amount * num_accounts` fits in `U256` that single `transferTsscToMany`
transaction carries total value `amount * num_accounts` (the recipient list
being the `num_accounts` generated addresses); when the product overflows,
the checked multiplication aborts instead of wrapping. -/
theorem bulk_funding_single_tx_value (n : ℕ) (genAddr : ℕ → ℕ) (f : ℕ) :
    (gen_wallets_transfer_tssc n genAddr f).length = 1 ∧
    (f * n < U256_MOD →
      gen_wallets_transfer_tssc n genAddr f
        = [.submittedTx ((List.range n).map genAddr) (f * n)]) ∧
    (U256_MOD ≤ f * n →
      gen_wallets_transfer_tssc n genAddr f
        = [.overflowAbort "Error in multiplying fund amount w receivers len."]) := by
  have hlen : ((List.range n).map genAddr).length = n := by
    rw [List.length_map, List.length_range]
  refine ⟨rfl, fun hlt => ?_, fun hge => ?_⟩
  · unfold gen_wallets_transfer_tssc transfer_tssc_bulk checkedMulU256
    simp only [List.length_map, List.length_range]
    rw [if_pos hlt]
  · unfold gen_wallets_transfer_tssc transfer_tssc_bulk checkedMulU256
    simp only [List.length_map, List.length_range]
    rw [if_neg (by omega)]

/-- Witness for C4: funding 5 accounts with 100 wei each attaches value 500
to the one submitted transaction; an amount of `2 ^ 255` for 4 accounts
overflows `U256` and aborts. -/
theorem bulk_funding_single_tx_value_witness :
    gen_wallets_transfer_tssc 5 id 100
      = [.submittedTx ((List.range 5).map id) 500] ∧
    gen_wallets_transfer_tssc 4 id (2 ^ 255)
      = [.overflowAbort "Error in multiplying fund amount w receivers len."] :=
  ⟨(bulk_funding_single_tx_value 5 id 100).2.1 (by decide),
   (bulk_funding_single_tx_value 4 id (2 ^ 255)).2.2 (by decide)⟩

/-- C5 counterexample: a caller-supplied heavy-workload magnitude of 2651
(strictly above the configured ceiling `MAX_LOAD_COUNT_PER_BLOCK = 2650`)
is not rejected: with a funded account (1 TSSC) and a 21000-gas estimate,
`load_set_array` from `contracts.rs` reaches transaction submission with
count 2651 — there is no GasBudgetExceeded failure, contradicting the
claim that such a magnitude always fails before submission. -/
theorem heavy_magnitude_above_ceiling_submits :
    MAX_LOAD_COUNT_PER_BLOCK < 2651 ∧
    load_set_array_c ⟨10 ^ 18, 21000, 2651⟩ = .submitted 2651 := by
  constructor
  · decide
  · decide

/-- C5 amended: the code has no gas-budget guard at all.  The
`contracts.rs` variant submits the caller-supplied magnitude unchanged —
even strictly above the 2650 ceiling — whenever the gas-price balance
assertion passes, and the `utils.rs` variant ignores any caller input,
always submitting the fixed count 2650. -/
theorem heavy_no_budget_guard (t : HeavyTask)
    (_hm : MAX_LOAD_COUNT_PER_BLOCK < t.maxLoadCountPerBlock)
    (hg : t.estimatedGas * ASSUMED_GAS_PRICE_WEI < U256_MOD)
    (hb : t.estimatedGas * ASSUMED_GAS_PRICE_WEI ≤ t.fromBalancePre) :
    load_set_array_c t = .submitted t.maxLoadCountPerBlock ∧
    (∀ s : ℕ, load_set_array s = .submitted MAX_LOAD_COUNT_PER_BLOCK) := by
  refine ⟨?_, fun _ => rfl⟩
  rw [load_set_array_c_eval t hg, if_pos hb]

/-- Witness for C5's amended statement: magnitude 3000 with a funded
account submits count 3000. -/
theorem heavy_no_budget_guard_witness :
    load_set_array_c ⟨10 ^ 18, 21000, 3000⟩ = .submitted 3000 :=
  (heavy_no_budget_guard ⟨10 ^ 18, 21000, 3000⟩ (by decide) (by decide) (by decide)).1

/-- C6 counterexample: in a two-task heavy batch where only the first
account's balance (0 wei) is short of the estimated
`gas * 3.5 Gwei = 73500000000000` wei and the second account holds 1 TSSC
(its task alone would submit fine), the failing balance assertion panics
and the whole dispatch run aborts — the failure is not isolated to the one
task, contradicting the claim. -/
theorem heavy_insufficient_balance_aborts_run :
    load_set_array_c ⟨10 ^ 18, 21000, 2650⟩ = .submitted 2650 ∧
    handle_async_calls_in_batch_heavy
        [⟨0, 21000, 2650⟩, ⟨10 ^ 18, 21000, 2650⟩]
      = .aborted "Balance short by: 73500000000000" := by
  constructor
  · decide
  · decide

/-- C6 amended: before submitting, the `contracts.rs` heavy operation does
estimate gas, multiply by the assumed 3.5 Gwei gas price and require the
submitting account's balance to cover the product — but an insufficient
balance fires an `assert!` panic, which aborts the entire dispatch run
(whatever other tasks follow), not just the individual task. -/
theorem heavy_precheck_fatal (t : HeavyTask) (rest : List HeavyTask)
    (hg : t.estimatedGas * ASSUMED_GAS_PRICE_WEI < U256_MOD)
    (hins : t.fromBalancePre < t.estimatedGas * ASSUMED_GAS_PRICE_WEI) :
    load_set_array_c t
      = .fatalAbort ("Balance short by: "
          ++ toString (t.estimatedGas * ASSUMED_GAS_PRICE_WEI - t.fromBalancePre)) ∧
    handle_async_calls_in_batch_heavy (t :: rest)
      = .aborted ("Balance short by: "
          ++ toString (t.estimatedGas * ASSUMED_GAS_PRICE_WEI - t.fromBalancePre)) := by
  have h1 : load_set_array_c t
      = .fatalAbort ("Balance short by: "
          ++ toString (t.estimatedGas * ASSUMED_GAS_PRICE_WEI - t.fromBalancePre)) := by
    rw [load_set_array_c_eval t hg, if_neg (by omega)]
  refine ⟨h1, ?_⟩
  unfold handle_async_calls_in_batch_heavy
  rw [chunks_cons (by decide) t rest]
  have htake : (t :: rest).take MAX_BATCH_SIZE = t :: rest.take 99 := by
    show (t :: rest).take (99 + 1) = t :: rest.take 99
    rw [List.take_succ_cons]
  rw [htake]
  have hjoin : joinAllHeavy (t :: rest.take 99)
      = .error ("Balance short by: "
          ++ toString (t.estimatedGas * ASSUMED_GAS_PRICE_WEI - t.fromBalancePre)) := by
    unfold joinAllHeavy
    simp only [List.map_cons, h1, List.find?_cons, isFatal]
  show runChunksHeavy (_ :: _) = _
  unfold runChunksHeavy
  rw [hjoin]

/-- Witness for C6's amended statement: the concrete aborted run. -/
theorem heavy_precheck_fatal_witness :
    handle_async_calls_in_batch_heavy [⟨0, 21000, 2650⟩]
      = .aborted ("Balance short by: " ++ toString (21000 * ASSUMED_GAS_PRICE_WEI - 0)) :=
  (heavy_precheck_fatal ⟨0, 21000, 2650⟩ [] (by decide) (by decide)).2

/-- C7 counterexample: a transaction submitted with gas limit 100000 and
gas price 1 wei which actually used 21000 gas at an effective gas price of
1 wei.  `get_gas_cost` (used by every println record in `utils.rs`) emits
100000 wei — the transaction's gas price times its gas limit — which is not
`effective_gas_price * gas_used = 21000` wei from the receipt, and the two
also differ after display conversion. -/
theorem gas_cost_uses_gas_limit :
    get_gas_cost ⟨1, 100000⟩ = some 100000 ∧
    log_tx_dbg_fee ⟨some 1, some 21000⟩ = some 21000 ∧
    (100000 : ℕ) ≠ 1 * 21000 ∧
    wei_to_tssc_f64 100000 ≠ wei_to_tssc_f64 21000 := by
  refine ⟨by decide, by decide, by decide, ?_⟩
  unfold wei_to_tssc_f64
  rw [if_pos (by decide), if_pos (by decide)]
  simp only [ne_eq, Option.some.injEq]
  norm_num

/-- C7 amended: only `log_tx_dbg` (the `contracts.rs` observability record)
computes the realized fee as `effective_gas_price * gas_used` from the
receipt; `get_gas_cost` (the `utils.rs` records) instead multiplies the
transaction's gas price by its gas limit, which need not equal the
receipt-based product. -/
theorem gas_cost_computations (tx : TxInfo) (r : Receipt) (p u : ℕ)
    (hp : r.effective_gas_price = some p) (hu : r.gas_used = some u)
    (hpu : p * u < U256_MOD) (htx : tx.gas_price * tx.gas < U256_MOD) :
    log_tx_dbg_fee r = some (p * u) ∧
    get_gas_cost tx = some (tx.gas_price * tx.gas) := by
  constructor
  · unfold log_tx_dbg_fee
    rw [hp, hu]
    show some ((checkedMulU256 p u).getD 0) = some (p * u)
    unfold checkedMulU256
    rw [if_pos hpu]
    rfl
  · unfold get_gas_cost checkedMulU256
    rw [if_pos htx]

/-- Witness for C7's amended statement at the counterexample's values. -/
theorem gas_cost_computations_witness :
    log_tx_dbg_fee ⟨some 1, some 21000⟩ = some (1 * 21000) ∧
    get_gas_cost ⟨1, 100000⟩ = some (1 * 100000) :=
  gas_cost_computations ⟨1, 100000⟩ ⟨some 1, some 21000⟩ 1 21000
    rfl rfl (by decide) (by decide)

/-- C8: `wei_to_tssc_f64` is partial — every base-unit amount strictly
below `2 ^ 64` converts to the amount divided by `10 ^ 18` (the exact value
of the display quotient; `f64` rounding abstracted), while any amount of
`2 ^ 64` or more makes the `as_usize` conversion abort instead of returning
a value.  `wei_to_tssc_string`, in contrast, produces its (nonempty)
display string for every `U256` amount. -/
theorem wei_to_tssc_f64_domain (b : ℕ) :
    (b < U64_MOD → wei_to_tssc_f64 b = some ((b : ℚ) / 10 ^ 18)) ∧
    (U64_MOD ≤ b → wei_to_tssc_f64 b = none) ∧
    wei_to_tssc_string b ≠ "" := by
  refine ⟨fun h => ?_, fun h => ?_, ?_⟩
  · unfold wei_to_tssc_f64
    rw [if_pos h]
  · unfold wei_to_tssc_f64
    rw [if_neg (by omega)]
  · unfold wei_to_tssc_string
    intro hcon
    have hdata : (toString (b / 10 ^ 18) ++ "." ++ padFrac18 (toString (b % 10 ^ 18))).data
        = ("" : String).data := by rw [hcon]
    simp [String.data_append] at hdata

/-- Witness for C8: one whole display unit (`10 ^ 18` wei) converts; the
first out-of-range amount `2 ^ 64` aborts; its string conversion still
returns a value. -/
theorem wei_to_tssc_f64_domain_witness :
    wei_to_tssc_f64 (10 ^ 18) = some (((10 ^ 18 : ℕ) : ℚ) / 10 ^ 18) ∧
    wei_to_tssc_f64 (2 ^ 64) = none ∧
    wei_to_tssc_string (2 ^ 64) ≠ "" :=
  ⟨(wei_to_tssc_f64_domain (10 ^ 18)).1 (by decide),
   (wei_to_tssc_f64_domain (2 ^ 64)).2.1 (by decide),
   (wei_to_tssc_f64_domain (2 ^ 64)).2.2⟩

/-- C9: `transfer_tssc` can only return `Ok(())` when the sender's
transaction count fetched after the send is strictly greater than the one
fetched before — the closing `assert!(nonce2 > nonce1)` guards every
successful return. -/
theorem transfer_tssc_nonce_increases (r : TransferReads)
    (h : transfer_tssc r = .ok) : r.nonceBefore < r.nonceAfter := by
  unfold transfer_tssc at h
  by_cases hs : r.sendSucceeds
  · rw [hs] at h
    simp only [Bool.not_true, Bool.false_eq_true, if_false] at h
    by_cases hn : r.nonceAfter > r.nonceBefore
    · exact hn
    · rw [if_neg hn] at h
      exact TransferOutcome.noConfusion h
  · rw [Bool.not_eq_true] at hs
    rw [hs] at h
    simp only [Bool.not_false, if_true] at h
    exact TransferOutcome.noConfusion h

/-- Witness for C9: a run whose provider reported nonce 0 before and 1
after the successful send returns `Ok` and indeed increased the count. -/
theorem transfer_tssc_nonce_increases_witness : (0 : ℕ) < 1 :=
  transfer_tssc_nonce_increases ⟨0, true, 1⟩ (by decide)

/-- C10: workload-kind parsing is case-insensitive and exhaustive — parsing
succeeds exactly when the input's uppercase form is "LIGHT" or "HEAVY"
(yielding the corresponding `TransactionType`), every other input fails
with an error message quoting the invalid input, and on such a failure
`main` bails out performing neither funding nor dispatch. -/
theorem transaction_type_parsing (s : String) :
    (transactionType_from_str s = .ok .LIGHT ↔ rustToUppercase s = "LIGHT") ∧
    (transactionType_from_str s = .ok .HEAVY ↔ rustToUppercase s = "HEAVY") ∧
    ((∃ t, transactionType_from_str s = .ok t) ↔
      (rustToUppercase s = "LIGHT" ∨ rustToUppercase s = "HEAVY")) ∧
    (∀ e, transactionType_from_str s = .error e →
      e = "\x27" ++ s ++ "\x27 is not a valid TransactionType" ∧
      mainPhases s = .error e) := by
  unfold mainPhases transactionType_from_str
  by_cases h1 : rustToUppercase s = "LIGHT"
  · rw [if_pos h1]
    refine ⟨⟨fun _ => h1, fun _ => rfl⟩, ⟨fun h => ?_, fun h2 => ?_⟩,
      ⟨fun _ => Or.inl h1, fun _ => ⟨.LIGHT, rfl⟩⟩, fun e he => Except.noConfusion he⟩
    · exact absurd (Except.ok.inj h) (fun hlh => TransactionType.noConfusion hlh)
    · rw [h1] at h2
      exact absurd h2 (by decide)
  · rw [if_neg h1]
    by_cases h2 : rustToUppercase s = "HEAVY"
    · rw [if_pos h2]
      refine ⟨⟨fun h => ?_, fun hl => ?_⟩, ⟨fun _ => h2, fun _ => rfl⟩,
        ⟨fun _ => Or.inr h2, fun _ => ⟨.HEAVY, rfl⟩⟩, fun e he => Except.noConfusion he⟩
      · exact absurd (Except.ok.inj h) (fun hlh => TransactionType.noConfusion hlh)
      · exact absurd hl h1
    · rw [if_neg h2]
      refine ⟨⟨fun h => Except.noConfusion h, fun hl => absurd hl h1⟩,
        ⟨fun h => Except.noConfusion h, fun hh => absurd hh h2⟩,
        ⟨fun ⟨t, ht⟩ => Except.noConfusion ht, fun hor => absurd hor (by tauto)⟩,
        fun e he => ⟨(Except.error.inj he).symm, by rw [← Except.error.inj he]⟩⟩

/-- Witness for C10: the mixed-case input "Light" parses (its uppercase
form is "LIGHT"); the invalid input "foo" fails with the quoting message
and `main` performs no phase at all. -/
theorem transaction_type_parsing_witness :
    transactionType_from_str "Light" = .ok .LIGHT ∧
    ("\x27foo\x27 is not a valid TransactionType"
        = "\x27" ++ "foo" ++ "\x27 is not a valid TransactionType" ∧
      mainPhases "foo" = .error "\x27foo\x27 is not a valid TransactionType") :=
  ⟨(transaction_type_parsing "Light").1.mpr (by decide),
   (transaction_type_parsing "foo").2.2.2 _ rfl⟩

end Dtp
